import Mathlib

/-!
Verification of the Mandelbrot GPU renderer (src/src/FractalEngine.ts and the
second shader variant in src/unnamed/part_000).

The host-side animation state and the shader's escape-time loop use only
rational arithmetic (additions, multiplications, comparisons), so they are
embedded over ℚ and stay fully executable.  The shader's `log2`-based
smoothing, the iteration-budget formula and the color interpolation are
real-valued and are embedded over ℝ with `Real.logb 2` standing for the
GPU / JS `log2`.
-/

/-! ## Host-side constants (src/src/FractalEngine.ts, lines 5-6 and 157, 166-167) -/

/-- `MAX_ZOOM = 2.5` (FractalEngine.ts line 5). -/
def MAX_ZOOM : ℚ := 2.5

/-- `MIN_ZOOM = 0.0003` (FractalEngine.ts line 6). -/
def MIN_ZOOM : ℚ := 0.0003

/-- The zoom speed constant `0.0005` from line 157. -/
def KZoom : ℚ := 0.0005

/-! ## Shader escape-time loop (FractalEngine.ts, `iterateMandelbrot`, lines 90-109) -/

/-- One Mandelbrot step `z ← (z.x² - z.y², 2 z.x z.y) + c` (line 94). -/
def mandelStep (c z : ℚ × ℚ) : ℚ × ℚ :=
  (z.1 * z.1 - z.2 * z.2 + c.1, 2 * z.1 * z.2 + c.2)

/-- `dot(z, z) = z.x² + z.y²`. -/
def dot2 (z : ℚ × ℚ) : ℚ := z.1 * z.1 + z.2 * z.2

/-- The bailout threshold `b * b` with `b = 256` (lines 62 and 96). -/
def bailout : ℚ := 256 * 256

/-- Result of the shader loop: final iterate `z`, the recorded counter `n`,
the number of executed loop bodies `steps`, and whether `Break` fired. -/
structure LoopResult where
  z : ℚ × ℚ
  n : ℕ
  steps : ℕ
  escaped : Bool
deriving Repr, DecidableEq

/-- The loop of `iterateMandelbrot` (lines 93-100): each body does
`z ← step z; if dot(z,z) > b*b then Break; n ← n + 1`, for at most
`fuel` bodies (the loop header runs `i` from `0` while `i < maxIterations`). -/
def runLoop (c : ℚ × ℚ) : ℕ → ℚ × ℚ → ℕ → ℕ → LoopResult
  | 0, z, n, steps => ⟨z, n, steps, false⟩
  | fuel + 1, z, n, steps =>
      let z' := mandelStep c z
      if bailout < dot2 z' then ⟨z', n, steps + 1, true⟩
      else runLoop c fuel z' (n + 1) (steps + 1)

/-- The loop of `iterateMandelbrot` started from `z = 0`, `n = 0`. -/
def iterateMandelbrotLoop (c : ℚ × ℚ) (maxIter : ℕ) : LoopResult :=
  runLoop c maxIter (0, 0) 0 0

/-- The sequence of iterates `z_0 = 0`, `z_{k+1} = z_k² + c` examined by the
loop (`z_k` is the value of `z` after `k` executed bodies). -/
def orbit (c : ℚ × ℚ) : ℕ → ℚ × ℚ
  | 0 => (0, 0)
  | k + 1 => mandelStep c (orbit c k)

/-- The return value of `iterateMandelbrot` (lines 102-108): `0` when
`n ≥ maxIterations - 1`, else `n - (log2(log2(dot(z,z))) + 4.0)`. -/
noncomputable def iterateMandelbrot (c : ℚ × ℚ) (maxIter : ℕ) : ℝ :=
  let r := iterateMandelbrotLoop c maxIter
  if (maxIter : ℤ) - 1 ≤ (r.n : ℤ) then 0
  else (r.n : ℝ) - (Real.logb 2 (Real.logb 2 ((dot2 r.z : ℚ) : ℝ)) + 4)

/-! ## Shader color mapping (`rgbColorFromIteration`, lines 61-88) -/

/-- The nested `select` of `rgbColorFromIteration`, as a function of the
normalized value `t = iteration / 100` and the five palette colors
(each a `vec3`, modelled as `Fin 3 → ℝ`).  Bands (lines 69-85):
`t ≤ 0.16`, `t ≤ 0.42`, `t ≤ 0.6425`, `t ≤ 0.8575`, else the last color. -/
noncomputable def bandColor (C : Fin 5 → Fin 3 → ℝ) (t : ℝ) : Fin 3 → ℝ :=
  if t ≤ 0.16 then
    fun i => C 0 i + (C 1 i - C 0 i) * (t / 0.16)
  else if t ≤ 0.42 then
    fun i => C 1 i + (C 2 i - C 1 i) * ((t - 0.16) / (0.42 - 0.16))
  else if t ≤ 0.6425 then
    fun i => C 2 i + (C 3 i - C 2 i) * ((t - 0.42) / (0.6425 - 0.42))
  else if t ≤ 0.8575 then
    fun i => C 3 i + (C 4 i - C 3 i) * ((t - 0.6425) / (0.8575 - 0.6425))
  else C 4

/-- `rgbColorFromIteration` (lines 65-88): divides the iteration value by the
fixed reference budget `maxIterations = float(100)` (line 61) and applies the
band selection. -/
noncomputable def rgbColorFromIteration (C : Fin 5 → Fin 3 → ℝ) (iteration : ℝ) :
    Fin 3 → ℝ :=
  bandColor C (iteration / 100)

/-! ## Second shader variant (src/unnamed/part_000, `mandelBrot`, lines 89-114).
Its loop assigns `iteration ← i`, tests `dot(z,z) > 4` BEFORE updating `z`,
and the fragment is flat black when `iteration ≥ maxIterations - 1`. -/

/-- The loop of the second variant: body `iteration ← i; if dot(z,z) > 4 then
Break; z ← step z`.  Returns the final `iteration` value and whether `Break`
fired. -/
def runLoopV2 (c : ℚ × ℚ) : ℕ → ℚ × ℚ → ℕ → ℕ → ℕ × Bool
  | 0, _, _, iter => (iter, false)
  | fuel + 1, z, i, _ =>
      if 4 < dot2 z then (i, true)
      else runLoopV2 c fuel (mandelStep c z) (i + 1) i

/-- The second variant's loop started from `z = 0`, `i = 0`, `iteration = 0`. -/
def iterateV2 (c : ℚ × ℚ) (maxIter : ℕ) : ℕ × Bool :=
  runLoopV2 c maxIter (0, 0) 0 0

/-- The second variant's fragment color (part_000 line 111): flat black when
`iteration ≥ maxIterations - 1`, else `rgbColorFromIteration(iteration)`. -/
noncomputable def colorV2 (C : Fin 5 → Fin 3 → ℝ) (c : ℚ × ℚ) (maxIter : ℕ) :
    Fin 3 → ℝ :=
  if (maxIter : ℤ) - 1 ≤ ((iterateV2 c maxIter).1 : ℤ) then fun _ => 0
  else rgbColorFromIteration C ((iterateV2 c maxIter).1 : ℝ)

/-! ## Host-side animation state (`renderLoop`, lines 146-170) -/

/-- The mutable host state driving the zoom animation: the `uZoom` uniform and
the `zoomingIn` flag. -/
structure AnimState where
  zoom : ℚ
  zoomingIn : Bool
deriving Repr, DecidableEq

/-- Initial state: `uZoom = MAX_ZOOM` (line 38), `zoomingIn = true` (line 35). -/
def initState : AnimState := ⟨MAX_ZOOM, true⟩

/-- The phase update of lines 151-155: `if zoom ≤ MIN_ZOOM then zoomingIn ←
false else if zoom ≥ MAX_ZOOM then zoomingIn ← true`. -/
def flipPhase (s : AnimState) : Bool :=
  if s.zoom ≤ MIN_ZOOM then false
  else if MAX_ZOOM ≤ s.zoom then true
  else s.zoomingIn

/-- One frame of the zoom animation (lines 151-157): the phase flip runs first
on the previous zoom, then `zoom ← zoom * (1 - delta * 0.0005 * (zoomingIn ? 1
: -1))` with the updated phase. -/
def stepAnim (s : AnimState) (delta : ℚ) : AnimState :=
  let zi := flipPhase s
  ⟨s.zoom * (1 - delta * KZoom * (if zi then 1 else -1)), zi⟩

/-- Folding `stepAnim` over a sequence of frame deltas. -/
def runAnim (s : AnimState) : List ℚ → AnimState
  | [] => s
  | d :: ds => runAnim (stepAnim s d) ds

/-- The per-frame iteration budget (lines 166-167):
`maxIterations = Math.floor(100 + log2(2.5 / zoom) * 50)`. -/
noncomputable def maxIterationsOfZoom (zoom : ℚ) : ℤ :=
  ⌊(100 : ℝ) + Real.logb 2 ((2.5 : ℝ) / (zoom : ℝ)) * 50⌋

/-! ## Resize handler and JS float division (`onResize`, FractalEngine.ts lines
136-144 and part_000 lines 128-135).  The handler stores `width / height` with
JS `/` semantics; `FloatVal` models the IEEE-754 special values that JS
division and arithmetic can produce (finite values are kept exact). -/

/-- A JS number: a finite value (kept as an exact rational), `Infinity`,
`-Infinity`, or `NaN`. -/
inductive FloatVal where
  | finite (q : ℚ)
  | posInf
  | negInf
  | nan
deriving Repr, DecidableEq

/-- Whether a JS number is finite. -/
def FloatVal.isFinite : FloatVal → Bool
  | .finite _ => true
  | _ => false

/-- JS division `w / h`: finite quotient when `h ≠ 0`, else `±Infinity` (by the
sign of `w`) or `NaN` for `0 / 0`. -/
def jsDiv (w h : ℚ) : FloatVal :=
  if h ≠ 0 then .finite (w / h)
  else if 0 < w then .posInf
  else if w < 0 then .negInf
  else .nan

/-- JS multiplication of a number by a finite value. -/
def fmulFin : FloatVal → ℚ → FloatVal
  | .finite a, q => .finite (a * q)
  | .posInf, q => if 0 < q then .posInf else if q < 0 then .negInf else .nan
  | .negInf, q => if 0 < q then .negInf else if q < 0 then .posInf else .nan
  | .nan, _ => .nan

/-- JS addition of a number and a finite value. -/
def faddFin : FloatVal → ℚ → FloatVal
  | .finite a, q => .finite (a + q)
  | .posInf, _ => .posInf
  | .negInf, _ => .negInf
  | .nan, _ => .nan

/-- The x-coordinate of the shader's sample point (FractalEngine.ts lines
114-115): `positionLocal.x * uAspect * uZoom + uStart.x`, with the aspect
value possibly non-finite. -/
def samplePointX (aspect : FloatVal) (x zoom startX : ℚ) : FloatVal :=
  faddFin (fmulFin (fmulFin aspect x) zoom) startX

/-- The aspect value stored by `onResize` (lines 136-144): for each entry the
handler overwrites `uAspect` with `width / height`, unconditionally. -/
def onResizeAspect (entries : List (ℚ × ℚ)) (a : FloatVal) : FloatVal :=
  entries.foldl (fun _ e => jsDiv e.1 e.2) a

/-- The smoothed-count formula exactly as the spec words it:
`n_smooth = n - log2(log2(|z|²)) + 4.0` (spec section 4.2 step 4).  Kept
separate from `iterateMandelbrot` so the two can be compared. -/
noncomputable def smoothedCountSpec (n zz : ℝ) : ℝ :=
  n - Real.logb 2 (Real.logb 2 zz) + 4

/-! ## Helper lemmas about the escape loop -/

theorem orbit_succ (c : ℚ × ℚ) (k : ℕ) : orbit c (k + 1) = mandelStep c (orbit c k) := rfl

theorem orbit_zero_c (k : ℕ) : orbit (0, 0) k = (0, 0) := by
  induction k with
  | zero => rfl
  | succ k ih =>
      rw [orbit_succ, ih]
      simp [mandelStep]

/-- One unfolding of the loop body. -/
theorem runLoop_succ_eq (c z : ℚ × ℚ) (n s fuel : ℕ) :
    runLoop c (fuel + 1) z n s =
      if bailout < dot2 (mandelStep c z) then ⟨mandelStep c z, n, s + 1, true⟩
      else runLoop c fuel (mandelStep c z) (n + 1) (s + 1) := rfl

theorem runLoop_steps_le (c : ℚ × ℚ) :
    ∀ (fuel : ℕ) (z : ℚ × ℚ) (n s : ℕ), (runLoop c fuel z n s).steps ≤ s + fuel := by
  intro fuel
  induction fuel with
  | zero => intro z n s; simp [runLoop]
  | succ fuel ih =>
      intro z n s
      rw [runLoop_succ_eq]
      by_cases hb : bailout < dot2 (mandelStep c z)
      · rw [if_pos hb]
        show s + 1 ≤ s + (fuel + 1)
        omega
      · rw [if_neg hb]
        have := ih (mandelStep c z) (n + 1) (s + 1)
        omega

theorem runLoop_not_escaped (c : ℚ × ℚ) :
    ∀ (fuel : ℕ) (z : ℚ × ℚ) (n s : ℕ),
      (runLoop c fuel z n s).escaped = false → (runLoop c fuel z n s).n = n + fuel := by
  intro fuel
  induction fuel with
  | zero => intro z n s _; simp [runLoop]
  | succ fuel ih =>
      intro z n s h
      rw [runLoop_succ_eq] at h ⊢
      by_cases hb : bailout < dot2 (mandelStep c z)
      · rw [if_pos hb] at h
        simp at h
      · rw [if_neg hb] at h ⊢
        rw [ih _ _ _ h]
        omega

/-- If the orbit stays within the bailout for the whole fuel budget, the loop
runs to completion. -/
theorem runLoop_complete (c : ℚ × ℚ) :
    ∀ (fuel j n s : ℕ),
      (∀ i, i < fuel → dot2 (orbit c (j + i + 1)) ≤ bailout) →
      runLoop c fuel (orbit c j) n s = ⟨orbit c (j + fuel), n + fuel, s + fuel, false⟩ := by
  intro fuel
  induction fuel with
  | zero => intro j n s _; simp [runLoop]
  | succ fuel ih =>
      intro j n s h
      rw [runLoop_succ_eq, ← orbit_succ]
      rw [if_neg (by have := h 0 (by omega); simpa using not_lt.2 this)]
      have hstay : ∀ i, i < fuel → dot2 (orbit c (j + 1 + i + 1)) ≤ bailout := by
        intro i hi
        have := h (i + 1) (by omega)
        have heq : j + (i + 1) + 1 = j + 1 + i + 1 := by omega
        rwa [heq] at this
      rw [ih (j + 1) (n + 1) (s + 1) hstay]
      have h1 : j + 1 + fuel = j + (fuel + 1) := by omega
      have h2 : n + 1 + fuel = n + (fuel + 1) := by omega
      have h3 : s + 1 + fuel = s + (fuel + 1) := by omega
      rw [h1, h2, h3]

/-- If the orbit first exceeds the bailout at index `j + k + 1` with `k`
strictly below the remaining fuel, the loop breaks there. -/
theorem runLoop_escape (c : ℚ × ℚ) :
    ∀ (k fuel j n s : ℕ), k < fuel →
      (∀ i, i < k → dot2 (orbit c (j + i + 1)) ≤ bailout) →
      bailout < dot2 (orbit c (j + k + 1)) →
      runLoop c fuel (orbit c j) n s = ⟨orbit c (j + k + 1), n + k, s + k + 1, true⟩ := by
  intro k
  induction k with
  | zero =>
      intro fuel j n s hk _ hesc
      obtain ⟨f, rfl⟩ : ∃ f, fuel = f + 1 := ⟨fuel - 1, by omega⟩
      rw [runLoop_succ_eq, ← orbit_succ]
      rw [if_pos (by simpa using hesc)]
      norm_num
  | succ k ih =>
      intro fuel j n s hk hstay hesc
      obtain ⟨f, rfl⟩ : ∃ f, fuel = f + 1 := ⟨fuel - 1, by omega⟩
      rw [runLoop_succ_eq, ← orbit_succ]
      rw [if_neg (by have := hstay 0 (by omega); simpa using not_lt.2 this)]
      have hstay' : ∀ i, i < k → dot2 (orbit c (j + 1 + i + 1)) ≤ bailout := by
        intro i hi
        have := hstay (i + 1) (by omega)
        have heq : j + (i + 1) + 1 = j + 1 + i + 1 := by omega
        rwa [heq] at this
      have hesc' : bailout < dot2 (orbit c (j + 1 + k + 1)) := by
        have heq : j + (k + 1) + 1 = j + 1 + k + 1 := by omega
        rwa [heq] at hesc
      rw [ih f (j + 1) (n + 1) (s + 1) (by omega) hstay' hesc']
      have h1 : j + 1 + k + 1 = j + (k + 1) + 1 := by omega
      have h2 : n + 1 + k = n + (k + 1) := by omega
      have h3 : s + 1 + k + 1 = s + (k + 1) + 1 := by omega
      rw [h1, h2, h3]

/-- If some orbit index strictly below the remaining fuel escapes, the loop
executes strictly fewer bodies than its budget. -/
theorem runLoop_early (c : ℚ × ℚ) :
    ∀ (fuel j n s : ℕ),
      (∃ k, j < k ∧ k < j + fuel ∧ bailout < dot2 (orbit c k)) →
      (runLoop c fuel (orbit c j) n s).steps < s + fuel := by
  intro fuel
  induction fuel with
  | zero =>
      intro j n s ⟨k, hk1, hk2, _⟩
      omega
  | succ fuel ih =>
      intro j n s ⟨k, hk1, hk2, hesc⟩
      rw [runLoop_succ_eq, ← orbit_succ]
      by_cases hb : bailout < dot2 (orbit c (j + 1))
      · rw [if_pos hb]
        have hkne : 0 < fuel := by
          have : j + 1 ≤ k := hk1
          by_cases hf : fuel = 0
          · subst hf; omega
          · omega
        show s + 1 < s + (fuel + 1)
        omega
      · rw [if_neg hb]
        have hkne : k ≠ j + 1 := fun h => hb (h ▸ hesc)
        have := ih (j + 1) (n + 1) (s + 1) ⟨k, by omega, by omega, hesc⟩
        omega

/-! ## Concrete evaluations of the loop (the kernel cannot reduce `ℚ`
arithmetic, so these go through the trace lemmas and `norm_num`) -/

theorem loopEval_two_100 : iterateMandelbrotLoop (2, 0) 100 = ⟨(1446, 0), 3, 4, true⟩ := by
  have h := runLoop_escape (2, 0) 3 100 0 0 0 (by omega)
    (by intro i hi
        interval_cases i <;> norm_num [orbit, mandelStep, dot2, bailout])
    (by norm_num [orbit, mandelStep, dot2, bailout])
  calc iterateMandelbrotLoop (2, 0) 100 = runLoop (2, 0) 100 (orbit (2, 0) 0) 0 0 := rfl
    _ = ⟨orbit (2, 0) (0 + 3 + 1), 0 + 3, 0 + 3 + 1, true⟩ := h
    _ = ⟨(1446, 0), 3, 4, true⟩ := by norm_num [orbit, mandelStep]

theorem loopEval_two_4 : iterateMandelbrotLoop (2, 0) 4 = ⟨(1446, 0), 3, 4, true⟩ := by
  have h := runLoop_escape (2, 0) 3 4 0 0 0 (by omega)
    (by intro i hi
        interval_cases i <;> norm_num [orbit, mandelStep, dot2, bailout])
    (by norm_num [orbit, mandelStep, dot2, bailout])
  calc iterateMandelbrotLoop (2, 0) 4 = runLoop (2, 0) 4 (orbit (2, 0) 0) 0 0 := rfl
    _ = ⟨orbit (2, 0) (0 + 3 + 1), 0 + 3, 0 + 3 + 1, true⟩ := h
    _ = ⟨(1446, 0), 3, 4, true⟩ := by norm_num [orbit, mandelStep]

theorem loopEval_origin_10 : iterateMandelbrotLoop (0, 0) 10 = ⟨(0, 0), 10, 10, false⟩ := by
  have h := runLoop_complete (0, 0) 10 0 0 0
    (by intro i hi
        rw [orbit_zero_c]
        norm_num [dot2, bailout])
  calc iterateMandelbrotLoop (0, 0) 10 = runLoop (0, 0) 10 (orbit (0, 0) 0) 0 0 := rfl
    _ = ⟨orbit (0, 0) (0 + 10), 0 + 10, 0 + 10, false⟩ := h
    _ = ⟨(0, 0), 10, 10, false⟩ := by rw [orbit_zero_c]

/-! ## Helper lemmas about the host animation step -/

theorem KZoom_eq : KZoom = 1 / 2000 := by norm_num [KZoom]

theorem flipPhase_false_zoom_lt {s : AnimState} (h : flipPhase s = false) :
    s.zoom < MAX_ZOOM := by
  unfold flipPhase at h
  by_cases h1 : s.zoom ≤ MIN_ZOOM
  · calc s.zoom ≤ MIN_ZOOM := h1
      _ < MAX_ZOOM := by norm_num [MIN_ZOOM, MAX_ZOOM]
  · rw [if_neg h1] at h
    by_cases h2 : MAX_ZOOM ≤ s.zoom
    · rw [if_pos h2] at h
      simp at h
    · exact not_le.1 h2

theorem stepAnim_zoom_eq (s : AnimState) (d : ℚ) :
    (stepAnim s d).zoom =
      s.zoom * (1 - d * KZoom * (if flipPhase s then 1 else -1)) := rfl

theorem stepAnim_pos {s : AnimState} {d : ℚ} (hz : 0 < s.zoom) (hd0 : 0 ≤ d)
    (hd : d < 2000) : 0 < (stepAnim s d).zoom := by
  rw [stepAnim_zoom_eq, KZoom_eq]
  by_cases hp : flipPhase s
  · rw [if_pos hp]
    have hfac : 0 < 1 - d * (1 / 2000) := by linarith
    exact mul_pos hz (by linarith)
  · rw [if_neg hp]
    have hdk : 0 ≤ d * (1 / 2000) := by positivity
    exact mul_pos hz (by linarith)

theorem stepAnim_lt {s : AnimState} {d : ℚ} (hz0 : 0 < s.zoom)
    (hz5 : s.zoom < 2 * MAX_ZOOM) (hd0 : 0 ≤ d) (hd : d < 2000) :
    (stepAnim s d).zoom < 2 * MAX_ZOOM := by
  rw [stepAnim_zoom_eq, KZoom_eq]
  by_cases hp : flipPhase s
  · rw [if_pos hp]
    have hdk : 0 ≤ d * (1 / 2000) := by positivity
    calc s.zoom * (1 - d * (1 / 2000) * 1) ≤ s.zoom * 1 := by
          apply mul_le_mul_of_nonneg_left _ (le_of_lt hz0)
          linarith
      _ = s.zoom := mul_one _
      _ < 2 * MAX_ZOOM := hz5
  · rw [if_neg hp]
    have hzM : s.zoom < MAX_ZOOM := flipPhase_false_zoom_lt (by simpa using hp)
    have hdk : 0 ≤ d * (1 / 2000) := by positivity
    have hdk2 : d * (1 / 2000) < 1 := by linarith
    have hM : MAX_ZOOM = 2.5 := rfl
    nlinarith [hz0, hzM, hdk, hdk2]

theorem runAnim_inv :
    ∀ ds : List ℚ, (∀ d ∈ ds, 0 ≤ d ∧ d < 2000) →
      ∀ s : AnimState, 0 < s.zoom → s.zoom < 2 * MAX_ZOOM →
        0 < (runAnim s ds).zoom ∧ (runAnim s ds).zoom < 2 * MAX_ZOOM := by
  intro ds
  induction ds with
  | nil => intro _ s h0 h5; exact ⟨h0, h5⟩
  | cons d ds ih =>
      intro h s h0 h5
      have hd := h d (by simp)
      exact ih (fun e he => h e (by simp [he])) (stepAnim s d)
        (stepAnim_pos h0 hd.1 hd.2) (stepAnim_lt h0 h5 hd.1 hd.2)

/-! ## Claim theorems -/

/-- Claim C3 (confirmed): each frame the new zoom equals
`zoom * (1 - delta * K_ZOOM * direction)` with `direction = +1` exactly when
the updated phase is ZoomingIn, and the phase flip (ZoomingIn → ZoomingOut
when `zoom ≤ MIN_ZOOM`, ZoomingOut → ZoomingIn when `zoom ≥ MAX_ZOOM`) is
evaluated before the zoom update, against the previous frame's zoom value. -/
theorem C3_zoom_update (s : AnimState) (delta : ℚ) :
    (stepAnim s delta).zoom
        = s.zoom * (1 - delta * KZoom * (if (stepAnim s delta).zoomingIn then 1 else -1)) ∧
    (stepAnim s delta).zoomingIn
        = (if s.zoom ≤ MIN_ZOOM then false
           else if MAX_ZOOM ≤ s.zoom then true
           else s.zoomingIn) :=
  ⟨rfl, rfl⟩

/-- Claim C2, counterexample: from the initial state, a single frame delta of
2000 ms (allowed by the claim, which quantifies over all deltas ≥ 0) drives the
zoom to exactly 0, so the zoom does NOT stay strictly above 0. -/
theorem C2_counterexample : ¬ (0 < (stepAnim initState 2000).zoom) := by
  norm_num [stepAnim, flipPhase, initState, MAX_ZOOM, MIN_ZOOM, KZoom]

/-- Claim C2 as amended: provided every frame delta lies in [0, 2000) ms
(equivalently `delta * 0.0005 < 1`), every reachable zoom stays strictly
positive, and the argument `MAX_ZOOM / zoom` of the `log2` in the
iteration-depth computation is strictly positive. -/
theorem C2_zoom_positive (ds : List ℚ) (h : ∀ d ∈ ds, 0 ≤ d ∧ d < 2000) :
    0 < (runAnim initState ds).zoom ∧
    0 < ((MAX_ZOOM : ℚ) : ℝ) / (((runAnim initState ds).zoom : ℚ) : ℝ) := by
  have hinv := runAnim_inv ds h initState (by norm_num [initState, MAX_ZOOM])
    (by norm_num [initState, MAX_ZOOM])
  refine ⟨hinv.1, div_pos ?_ ?_⟩
  · exact_mod_cast (by norm_num [MAX_ZOOM] : (0 : ℚ) < MAX_ZOOM)
  · exact_mod_cast hinv.1

/-- Witness for C2_zoom_positive at the delta sequence [16, 16, 16]. -/
theorem C2_witness :
    0 < (runAnim initState [16, 16, 16]).zoom ∧
    0 < ((MAX_ZOOM : ℚ) : ℝ) / (((runAnim initState [16, 16, 16]).zoom : ℚ) : ℝ) :=
  C2_zoom_positive [16, 16, 16] (by intro d hd; fin_cases hd <;> norm_num)

/-- Claim C5, counterexample: the state reached from the initial state after a
single frame with delta = 1999.8 ms has zoom = 0.00025, strictly below
MIN_ZOOM = 0.0003, so the claimed invariant zoom ∈ [MIN_ZOOM, MAX_ZOOM] is not
preserved. -/
theorem C5_counterexample :
    ¬ (MIN_ZOOM ≤ (stepAnim initState 1999.8).zoom ∧
        (stepAnim initState 1999.8).zoom ≤ MAX_ZOOM) := by
  norm_num [stepAnim, flipPhase, initState, MAX_ZOOM, MIN_ZOOM, KZoom]

/-- Claim C5 as amended: starting from the initial state (zoom = MAX_ZOOM,
phase ZoomingIn), for every sequence of frame deltas in [0, 2000) ms the
reachable zooms satisfy the (weaker, overshoot-tolerant) invariant
zoom ∈ (0, 2·MAX_ZOOM); the claimed interval [MIN_ZOOM, MAX_ZOOM] can be
overshot on both sides because the update is uncapped. -/
theorem C5_zoom_bounds (ds : List ℚ) (h : ∀ d ∈ ds, 0 ≤ d ∧ d < 2000) :
    0 < (runAnim initState ds).zoom ∧ (runAnim initState ds).zoom < 2 * MAX_ZOOM :=
  runAnim_inv ds h initState (by norm_num [initState, MAX_ZOOM])
    (by norm_num [initState, MAX_ZOOM])

/-- Witness for C5_zoom_bounds at the delta sequence [16]. -/
theorem C5_witness :
    0 < (runAnim initState [16]).zoom ∧ (runAnim initState [16]).zoom < 2 * MAX_ZOOM :=
  C5_zoom_bounds [16] (by intro d hd; fin_cases hd; norm_num)

/-- Claim C7 (confirmed): for every input point and every budget, the escape
loop executes at most `maxIterations` bodies; and whenever some iterate
`z_n` with `0 < n < maxIterations` satisfies `|z_n|² > 256²`, the loop stops
strictly before exhausting the budget. -/
theorem C7_termination (c : ℚ × ℚ) (m : ℕ) :
    (iterateMandelbrotLoop c m).steps ≤ m ∧
    (∀ n, 0 < n → n < m → bailout < dot2 (orbit c n) →
      (iterateMandelbrotLoop c m).steps < m) := by
  constructor
  · have h := runLoop_steps_le c m (0, 0) 0 0
    simpa [iterateMandelbrotLoop] using h
  · intro n hn0 hnm hesc
    have h := runLoop_early c m 0 0 0 ⟨n, hn0, by omega, hesc⟩
    simpa [iterateMandelbrotLoop, orbit] using h

/-- Witness for C7_termination: for c = 2 + 0i and budget 100, the 4th iterate
escapes, and the loop indeed stops strictly before 100 steps. -/
theorem C7_witness :
    (iterateMandelbrotLoop (2, 0) 100).steps ≤ 100 ∧
    (iterateMandelbrotLoop (2, 0) 100).steps < 100 :=
  ⟨(C7_termination (2, 0) 100).1,
   (C7_termination (2, 0) 100).2 4 (by norm_num) (by norm_num)
     (by norm_num [orbit, mandelStep, dot2, bailout])⟩

/-- Claim C6 (confirmed): each frame's iteration budget is
`floor(100 + log2(MAX_ZOOM / zoom) * 50)`, and a smaller (deeper) zoom never
yields a smaller budget. -/
theorem C6_maxIterations (z1 z2 : ℚ) (h1 : 0 < z1) (h12 : z1 ≤ z2) :
    maxIterationsOfZoom z1
        = ⌊(100 : ℝ) + Real.logb 2 (((MAX_ZOOM : ℚ) : ℝ) / ((z1 : ℚ) : ℝ)) * 50⌋ ∧
    maxIterationsOfZoom z2 ≤ maxIterationsOfZoom z1 := by
  constructor
  · have hM : ((MAX_ZOOM : ℚ) : ℝ) = 2.5 := by norm_num [MAX_ZOOM]
    rw [maxIterationsOfZoom, hM]
  · have hz1 : (0 : ℝ) < ((z1 : ℚ) : ℝ) := by exact_mod_cast h1
    have hz2 : (0 : ℝ) < ((z2 : ℚ) : ℝ) := by
      have : (0 : ℚ) < z2 := lt_of_lt_of_le h1 h12
      exact_mod_cast this
    have hdiv : (2.5 : ℝ) / ((z2 : ℚ) : ℝ) ≤ (2.5 : ℝ) / ((z1 : ℚ) : ℝ) := by
      rw [div_le_div_iff_of_pos_left (by norm_num) hz2 hz1]
      exact_mod_cast h12
    have hlog := Real.logb_le_logb_of_le (by norm_num : (1 : ℝ) < 2)
      (div_pos (by norm_num) hz2) hdiv
    apply Int.floor_mono
    linarith

/-- Witness for C6_maxIterations at z1 = 1, z2 = 2. -/
theorem C6_witness :
    (0 : ℚ) < 1 ∧ (1 : ℚ) ≤ 2 ∧ maxIterationsOfZoom 2 ≤ maxIterationsOfZoom 1 :=
  ⟨by norm_num, by norm_num, (C6_maxIterations 1 2 (by norm_num) (by norm_num)).2⟩

/-- The concrete shader value at c = 2 + 0i with budget 100: the loop breaks
with n = 3 and z = (1446, 0), and the point is not classified in-set, so the
smoothing branch is taken. -/
theorem mandelTwoValue :
    iterateMandelbrot (2, 0) 100
      = (3 : ℝ) - (Real.logb 2 (Real.logb 2 (2090916 : ℝ)) + 4) := by
  simp only [iterateMandelbrot, loopEval_two_100]
  norm_num [dot2]

/-- Claim C1, counterexample: c = 2 + 0i with budget 100 is an escaped point
(the loop broke with n = 3, z = (1446, 0)), yet the shader's returned smoothed
value differs from the spec formula `n - log2(log2(|z|²)) + 4.0`: the code
computes `n - (log2(log2(|z|²)) + 4.0)`, i.e. it subtracts the 4.0. -/
theorem C1_counterexample :
    (iterateMandelbrotLoop (2, 0) 100).escaped = true ∧
    iterateMandelbrot (2, 0) 100 ≠
      smoothedCountSpec ((iterateMandelbrotLoop (2, 0) 100).n : ℝ)
        ((dot2 (iterateMandelbrotLoop (2, 0) 100).z : ℚ) : ℝ) := by
  refine ⟨by rw [loopEval_two_100], ?_⟩
  rw [mandelTwoValue, loopEval_two_100]
  simp only [smoothedCountSpec]
  norm_num [dot2]
  intro heq
  linarith

/-- Claim C1 as amended: for every point not classified in-set
(`n < maxIterations - 1`; every such point escaped), the shader's smoothed
value equals `n - log2(log2(|z|²)) - 4.0` — the 4.0 is subtracted, not
added as the spec states. -/
theorem C1_smoothed (c : ℚ × ℚ) (m : ℕ)
    (h : ((iterateMandelbrotLoop c m).n : ℤ) < (m : ℤ) - 1) :
    (iterateMandelbrotLoop c m).escaped = true ∧
    iterateMandelbrot c m
      = ((iterateMandelbrotLoop c m).n : ℝ)
        - Real.logb 2 (Real.logb 2 ((dot2 (iterateMandelbrotLoop c m).z : ℚ) : ℝ)) - 4 := by
  constructor
  · by_contra hesc
    have hne : (iterateMandelbrotLoop c m).escaped = false := by
      cases hb : (iterateMandelbrotLoop c m).escaped
      · rfl
      · exact absurd hb hesc
    have hn := runLoop_not_escaped c m (0, 0) 0 0 hne
    simp only [iterateMandelbrotLoop] at h
    omega
  · simp only [iterateMandelbrot]
    rw [if_neg (not_le.mpr h)]
    ring

/-- Witness for C1_smoothed at c = 2 + 0i, budget 100. -/
theorem C1_witness :
    ((iterateMandelbrotLoop (2, 0) 100).n : ℤ) < (100 : ℤ) - 1 ∧
    ((iterateMandelbrotLoop (2, 0) 100).escaped = true ∧
      iterateMandelbrot (2, 0) 100
        = ((iterateMandelbrotLoop (2, 0) 100).n : ℝ)
          - Real.logb 2
              (Real.logb 2 ((dot2 (iterateMandelbrotLoop (2, 0) 100).z : ℚ) : ℝ)) - 4) :=
  ⟨by rw [loopEval_two_100]; norm_num,
   C1_smoothed (2, 0) 100 (by rw [loopEval_two_100]; norm_num)⟩

/-- Iteration value 0 is mapped to the first palette color. -/
theorem rgbColor_zero (C : Fin 5 → Fin 3 → ℝ) : rgbColorFromIteration C 0 = C 0 := by
  funext i
  simp only [rgbColorFromIteration, bandColor]
  rw [if_pos (by norm_num : (0 : ℝ) / 100 ≤ 0.16)]
  norm_num

/-- In the second variant, if the loop never broke then the final `iteration`
value passes the interior test. -/
theorem runLoopV2_not_escaped (c : ℚ × ℚ) :
    ∀ (fuel : ℕ) (z : ℚ × ℚ) (i iter : ℕ), (i : ℤ) - 1 ≤ (iter : ℤ) →
      (runLoopV2 c fuel z i iter).2 = false →
      (fuel : ℤ) + i - 1 ≤ ((runLoopV2 c fuel z i iter).1 : ℤ) := by
  intro fuel
  induction fuel with
  | zero => intro z i iter hpre _; simpa [runLoopV2] using by omega
  | succ fuel ih =>
      intro z i iter hpre h
      simp only [runLoopV2] at h ⊢
      by_cases hb : 4 < dot2 z
      · rw [if_pos hb] at h
        simp at h
      · rw [if_neg hb] at h ⊢
        have := ih (mandelStep c z) (i + 1) i (by omega) h
        omega

/-- The second variant's loop for c = 0 runs to completion. -/
theorem v2Eval_origin_10 : (iterateV2 (0, 0) 10).2 = false := by
  norm_num [iterateV2, runLoopV2, mandelStep, dot2]

/-- Claim C4, counterexample: with budget 4, the point c = 2 + 0i escapes (the
loop breaks on its final iteration, with n = 3 and |z|² = 1446² > 256²), yet
the interior test `n ≥ maxIterations - 1` holds and the shader returns the
interior value 0.  So "classified in-set exactly when the loop ran to
completion without an early stop" is false. -/
theorem C4_counterexample :
    (iterateMandelbrotLoop (2, 0) 4).escaped = true ∧
    (4 : ℤ) - 1 ≤ ((iterateMandelbrotLoop (2, 0) 4).n : ℤ) ∧
    iterateMandelbrot (2, 0) 4 = 0 := by
  refine ⟨by rw [loopEval_two_4], by rw [loopEval_two_4]; norm_num, ?_⟩
  simp only [iterateMandelbrot, loopEval_two_4]
  norm_num

/-- Claim C4 as amended: the interior classification is the test
`n ≥ maxIterations - 1`.  Running to completion implies it (but a point
escaping exactly on the final iteration also passes it).  A classified point
gets value 0 in the main variant — which the color mapping sends to the first
palette color — and flat black in the second variant; every other point gets
the smoothed escape value. -/
theorem C4_interior (c : ℚ × ℚ) (m : ℕ) (C : Fin 5 → Fin 3 → ℝ) :
    ((iterateMandelbrotLoop c m).escaped = false →
      (m : ℤ) - 1 ≤ ((iterateMandelbrotLoop c m).n : ℤ)) ∧
    ((m : ℤ) - 1 ≤ ((iterateMandelbrotLoop c m).n : ℤ) →
      iterateMandelbrot c m = 0 ∧
      rgbColorFromIteration C (iterateMandelbrot c m) = C 0) ∧
    (¬ ((m : ℤ) - 1 ≤ ((iterateMandelbrotLoop c m).n : ℤ)) →
      iterateMandelbrot c m
        = ((iterateMandelbrotLoop c m).n : ℝ)
          - (Real.logb 2 (Real.logb 2 ((dot2 (iterateMandelbrotLoop c m).z : ℚ) : ℝ)) + 4)) ∧
    ((iterateV2 c m).2 = false → colorV2 C c m = fun _ => 0) := by
  refine ⟨?_, ?_, ?_, ?_⟩
  · intro hesc
    have hn := runLoop_not_escaped c m (0, 0) 0 0 hesc
    simp only [iterateMandelbrotLoop]
    omega
  · intro h
    have hval : iterateMandelbrot c m = 0 := by
      simp only [iterateMandelbrot]
      rw [if_pos h]
    exact ⟨hval, by rw [hval, rgbColor_zero]⟩
  · intro h
    simp only [iterateMandelbrot]
    rw [if_neg h]
  · intro h
    have hiter := runLoopV2_not_escaped c m (0, 0) 0 0 (by norm_num) h
    simp only [colorV2]
    rw [if_pos (by simp only [iterateV2] at *; omega)]

/-- Witness for C4_interior, discharging each implication at a concrete input:
c = 0 (in the set, budget 10) for the interior branches, c = 2 + 0i (budget
100) for the smoothing branch. -/
theorem C4_witness :
    ((10 : ℤ) - 1 ≤ ((iterateMandelbrotLoop (0, 0) 10).n : ℤ)) ∧
    iterateMandelbrot (0, 0) 10 = 0 ∧
    rgbColorFromIteration (fun _ _ => (1 : ℝ)) (iterateMandelbrot (0, 0) 10)
      = (fun _ _ => (1 : ℝ)) 0 ∧
    (iterateMandelbrot (2, 0) 100
      = ((iterateMandelbrotLoop (2, 0) 100).n : ℝ)
        - (Real.logb 2
            (Real.logb 2 ((dot2 (iterateMandelbrotLoop (2, 0) 100).z : ℚ) : ℝ)) + 4)) ∧
    colorV2 (fun _ _ => (1 : ℝ)) (0, 0) 10 = fun _ => 0 :=
  ⟨(C4_interior (0, 0) 10 (fun _ _ => 1)).1 (by rw [loopEval_origin_10]),
   ((C4_interior (0, 0) 10 (fun _ _ => 1)).2.1 (by rw [loopEval_origin_10]; norm_num)).1,
   ((C4_interior (0, 0) 10 (fun _ _ => 1)).2.1 (by rw [loopEval_origin_10]; norm_num)).2,
   (C4_interior (2, 0) 100 (fun _ _ => 1)).2.2.1 (by rw [loopEval_two_100]; norm_num),
   (C4_interior (0, 0) 10 (fun _ _ => 1)).2.2.2 v2Eval_origin_10⟩

/-- Claim C9, counterexample: for c = 2 + 0i the squared magnitude |z|² does
NOT exceed 256² within the first 2 iterations (z₁ = 2, z₂ = 6, so |z|² is 4
and then 36); the bailout is first exceeded at the 4th iterate. -/
theorem C9_counterexample :
    ¬ (bailout < dot2 (orbit (2, 0) 1) ∨ bailout < dot2 (orbit (2, 0) 2)) := by
  norm_num [orbit, mandelStep, dot2, bailout]

/-- Claim C9 as amended: for c = 2 + 0i with budget 100, |z|² first exceeds
256² at the 4th iterate (not within the first 2), the recorded escape count n
is at most 3, and the resulting normalized value t = value / 100 lies in the
first color band (t ≤ 0.16). -/
theorem C9_scenario :
    dot2 (orbit (2, 0) 3) ≤ bailout ∧
    bailout < dot2 (orbit (2, 0) 4) ∧
    (iterateMandelbrotLoop (2, 0) 100).n ≤ 3 ∧
    iterateMandelbrot (2, 0) 100 / 100 ≤ 0.16 := by
  refine ⟨by norm_num [orbit, mandelStep, dot2, bailout],
          by norm_num [orbit, mandelStep, dot2, bailout],
          by rw [loopEval_two_100], ?_⟩
  rw [mandelTwoValue]
  have h1 : (1 : ℝ) ≤ Real.logb 2 (2090916 : ℝ) := by
    rw [Real.le_logb_iff_rpow_le (by norm_num) (by norm_num)]
    rw [Real.rpow_one]
    norm_num
  have h0 : 0 ≤ Real.logb 2 (Real.logb 2 (2090916 : ℝ)) :=
    Real.logb_nonneg (by norm_num) h1
  linarith

/-- Right-limit helper: if `bandColor C` agrees with a continuous `g` on
`(a, b)` and `g a` equals the band value at `a`, then `bandColor C` tends to
its value at `a` from the right. -/
theorem band_tendsto_aux (C : Fin 5 → Fin 3 → ℝ) {a b : ℝ} (hab : a < b)
    (g : ℝ → Fin 3 → ℝ) (hg : Continuous g)
    (heq : ∀ t, t ∈ Set.Ioo a b → bandColor C t = g t)
    (hval : g a = bandColor C a) :
    Filter.Tendsto (bandColor C) (nhdsWithin a (Set.Ioi a)) (nhds (bandColor C a)) := by
  have h1 : Filter.Tendsto g (nhdsWithin a (Set.Ioi a)) (nhds (bandColor C a)) := by
    rw [← hval]
    exact (hg.tendsto a).mono_left nhdsWithin_le_nhds
  refine Filter.Tendsto.congr' ?_ h1
  exact Filter.eventuallyEq_of_mem (Ioo_mem_nhdsWithin_Ioi ⟨le_refl a, hab⟩)
    (fun t ht => (heq t ht).symm)

/-- Claim C8 (confirmed): the piecewise-linear color mapping is continuous
from the right at each interior breakpoint 0.16, 0.42, 0.6425, 0.8575: the
value of the band below the breakpoint, taken at the breakpoint, is the limit
of the band above it as t approaches from above — for every palette. -/
theorem C8_band_continuity (C : Fin 5 → Fin 3 → ℝ) :
    Filter.Tendsto (bandColor C) (nhdsWithin 0.16 (Set.Ioi 0.16))
        (nhds (bandColor C 0.16)) ∧
    Filter.Tendsto (bandColor C) (nhdsWithin 0.42 (Set.Ioi 0.42))
        (nhds (bandColor C 0.42)) ∧
    Filter.Tendsto (bandColor C) (nhdsWithin 0.6425 (Set.Ioi 0.6425))
        (nhds (bandColor C 0.6425)) ∧
    Filter.Tendsto (bandColor C) (nhdsWithin 0.8575 (Set.Ioi 0.8575))
        (nhds (bandColor C 0.8575)) := by
  refine ⟨?_, ?_, ?_, ?_⟩
  · apply band_tendsto_aux C (by norm_num : (0.16 : ℝ) < 0.42)
      (fun t => fun i => C 1 i + (C 2 i - C 1 i) * ((t - 0.16) / (0.42 - 0.16)))
    · apply continuous_pi
      intro i
      fun_prop
    · intro t ht
      simp only [bandColor]
      rw [if_neg (not_le.mpr ht.1), if_pos (le_of_lt ht.2)]
    · funext i
      simp only [bandColor]
      rw [if_pos (by norm_num : (0.16 : ℝ) ≤ 0.16)]
      norm_num
  · apply band_tendsto_aux C (by norm_num : (0.42 : ℝ) < 0.6425)
      (fun t => fun i => C 2 i + (C 3 i - C 2 i) * ((t - 0.42) / (0.6425 - 0.42)))
    · apply continuous_pi
      intro i
      fun_prop
    · intro t ht
      simp only [bandColor]
      rw [if_neg (by linarith [ht.1] : ¬ (t ≤ 0.16)), if_neg (not_le.mpr ht.1),
        if_pos (le_of_lt ht.2)]
    · funext i
      simp only [bandColor]
      rw [if_neg (by norm_num : ¬ ((0.42 : ℝ) ≤ 0.16)),
        if_pos (by norm_num : (0.42 : ℝ) ≤ 0.42)]
      norm_num
  · apply band_tendsto_aux C (by norm_num : (0.6425 : ℝ) < 0.8575)
      (fun t => fun i => C 3 i + (C 4 i - C 3 i) * ((t - 0.6425) / (0.8575 - 0.6425)))
    · apply continuous_pi
      intro i
      fun_prop
    · intro t ht
      simp only [bandColor]
      rw [if_neg (by linarith [ht.1] : ¬ (t ≤ 0.16)),
        if_neg (by linarith [ht.1] : ¬ (t ≤ 0.42)), if_neg (not_le.mpr ht.1),
        if_pos (le_of_lt ht.2)]
    · funext i
      simp only [bandColor]
      rw [if_neg (by norm_num : ¬ ((0.6425 : ℝ) ≤ 0.16)),
        if_neg (by norm_num : ¬ ((0.6425 : ℝ) ≤ 0.42)),
        if_pos (by norm_num : (0.6425 : ℝ) ≤ 0.6425)]
      norm_num
  · apply band_tendsto_aux C (by norm_num : (0.8575 : ℝ) < 1)
      (fun _ => fun i => C 4 i)
    · apply continuous_pi
      intro i
      fun_prop
    · intro t ht
      simp only [bandColor]
      rw [if_neg (by linarith [ht.1] : ¬ (t ≤ 0.16)),
        if_neg (by linarith [ht.1] : ¬ (t ≤ 0.42)),
        if_neg (by linarith [ht.1] : ¬ (t ≤ 0.6425)), if_neg (not_le.mpr ht.1)]
    · funext i
      simp only [bandColor]
      rw [if_neg (by norm_num : ¬ ((0.8575 : ℝ) ≤ 0.16)),
        if_neg (by norm_num : ¬ ((0.8575 : ℝ) ≤ 0.42)),
        if_neg (by norm_num : ¬ ((0.8575 : ℝ) ≤ 0.6425)),
        if_pos (by norm_num : (0.8575 : ℝ) ≤ 0.8575)]
      norm_num

/-- Multiplying a non-finite JS number by a finite one stays non-finite. -/
theorem fmulFin_not_finite {a : FloatVal} (h : a.isFinite = false) (q : ℚ) :
    (fmulFin a q).isFinite = false := by
  cases a with
  | finite x => simp [FloatVal.isFinite] at h
  | posInf =>
      simp only [fmulFin]
      by_cases h1 : 0 < q
      · rw [if_pos h1]; rfl
      · rw [if_neg h1]
        by_cases h2 : q < 0
        · rw [if_pos h2]; rfl
        · rw [if_neg h2]; rfl
  | negInf =>
      simp only [fmulFin]
      by_cases h1 : 0 < q
      · rw [if_pos h1]; rfl
      · rw [if_neg h1]
        by_cases h2 : q < 0
        · rw [if_pos h2]; rfl
        · rw [if_neg h2]; rfl
  | nan => rfl

/-- Adding a finite JS number to a non-finite one stays non-finite. -/
theorem faddFin_not_finite {a : FloatVal} (h : a.isFinite = false) (q : ℚ) :
    (faddFin a q).isFinite = false := by
  cases a with
  | finite x => simp [FloatVal.isFinite] at h
  | posInf => rfl
  | negInf => rfl
  | nan => rfl

/-- Claim C10 (confirmed): the resize handler stores exactly `width / height`
with no validation; for a notification with `height = 0` and `width > 0` the
stored aspect is `Infinity` (non-finite), and the sample-point mapping of the
next frame, which multiplies the pixel x-coordinate by this aspect, then by
the zoom, and adds the center offset, produces a non-finite coordinate for
every pixel. -/
theorem C10_resize (w h : ℚ) (a0 : FloatVal) :
    onResizeAspect [(w, h)] a0 = jsDiv w h ∧
    (h ≠ 0 → jsDiv w h = FloatVal.finite (w / h)) ∧
    (0 < w →
      jsDiv w 0 = FloatVal.posInf ∧
      (jsDiv w 0).isFinite = false ∧
      ∀ x z sx : ℚ, (samplePointX (jsDiv w 0) x z sx).isFinite = false) := by
  refine ⟨rfl, fun hh => by simp only [jsDiv]; rw [if_pos hh], fun hw => ?_⟩
  have hdiv : jsDiv w 0 = FloatVal.posInf := by
    simp only [jsDiv]
    rw [if_neg (by norm_num), if_pos hw]
  refine ⟨hdiv, by rw [hdiv]; rfl, fun x z sx => ?_⟩
  rw [hdiv]
  have hpi : FloatVal.posInf.isFinite = false := rfl
  exact faddFin_not_finite (fmulFin_not_finite (fmulFin_not_finite hpi x) z) sx

/-- Witness for C10_resize at the notification {width: 800, height: 0} (and
{800, 400} for the finite branch). -/
theorem C10_witness :
    onResizeAspect [((800 : ℚ), 0)] (FloatVal.finite 1) = jsDiv 800 0 ∧
    jsDiv 800 400 = FloatVal.finite 2 ∧
    (jsDiv 800 0).isFinite = false ∧
    (samplePointX (jsDiv 800 0) 1 (5 / 2) 0).isFinite = false :=
  ⟨(C10_resize 800 0 (FloatVal.finite 1)).1,
   by rw [(C10_resize 800 400 (FloatVal.finite 1)).2.1 (by norm_num)]; norm_num,
   ((C10_resize 800 0 (FloatVal.finite 1)).2.2 (by norm_num)).2.1,
   ((C10_resize 800 0 (FloatVal.finite 1)).2.2 (by norm_num)).2.2 1 (5 / 2) 0⟩
